import Mathlib

/-!
Shallow embedding of `src/mcp_server_todo/service.py` (luohy15/mcp-todo).

The Python module is a stateless task store: every operation loads the
whole task list from a JSON-lines file, computes, and (for mutations)
rewrites the file.  We model the file content as a `List Task` passed
explicitly; the impure inputs `datetime.now().date()` (used by the range
filter) and `datetime.now().isoformat()` (used for timestamps) become
explicit parameters `today : Date` and `now : String`.

`due_date` is stored in Python as a `YYYY-MM-DD` string and parsed with
`strptime` wherever it is compared; we model it as `Option Date` directly
(a parsed calendar date), and Python `date` comparison — lexicographic on
(year, month, day) — as `Date.ble`.  Python's `date ± timedelta` is
modelled by iterating a successor/predecessor day function, which agrees
with ordinal arithmetic on all valid dates (the model extends the
calendar past year 9999, where CPython would raise OverflowError).

Python's `list.sort(key=...)` is a stable ascending sort; a stable sort
is extensionally unique for a total comparator, so we embed it as a
stable insertion sort `sortBy`.  The `priority` sort looks its key up in
a dict whose missing keys raise `KeyError`; `sortTasks` therefore
returns `Option`, with `none` for the KeyError.
-/

namespace McpTodo

/-- Calendar date, as Python's `datetime.date` (year, month, day). -/
structure Date where
  year : Nat
  month : Nat
  day : Nat
deriving DecidableEq, Repr

/-- Gregorian leap-year rule, as in `datetime`. -/
def isLeap (y : Nat) : Bool :=
  y % 4 == 0 && (y % 100 != 0 || y % 400 == 0)

/-- Number of days in month `m` of year `y` (months 1..12). -/
def daysInMonth (y m : Nat) : Nat :=
  if m = 2 then (if isLeap y then 29 else 28)
  else if m = 4 ∨ m = 6 ∨ m = 9 ∨ m = 11 then 30 else 31

/-- A structurally valid calendar date. -/
def Date.Valid (d : Date) : Prop :=
  1 ≤ d.month ∧ d.month ≤ 12 ∧ 1 ≤ d.day ∧ d.day ≤ daysInMonth d.year d.month

instance (d : Date) : Decidable d.Valid := by
  unfold Date.Valid; infer_instance

/-- The day after `d` (rolling over months and years). -/
def succDay (d : Date) : Date :=
  if d.day < daysInMonth d.year d.month then ⟨d.year, d.month, d.day + 1⟩
  else if d.month < 12 then ⟨d.year, d.month + 1, 1⟩
  else ⟨d.year + 1, 1, 1⟩

/-- `d + timedelta(days := n)` for a nonnegative day count. -/
def addDays (d : Date) : Nat → Date
  | 0 => d
  | n + 1 => addDays (succDay d) n

/-- The day before `d`: models `d - timedelta(days := 1)`. -/
def predDay (d : Date) : Date :=
  if 1 < d.day then ⟨d.year, d.month, d.day - 1⟩
  else if 1 < d.month then ⟨d.year, d.month - 1, daysInMonth d.year (d.month - 1)⟩
  else ⟨d.year - 1, 12, 31⟩

/-- `d.replace(day := 1)`. -/
def firstOfMonth (d : Date) : Date := ⟨d.year, d.month, 1⟩

/-- Python `date` comparison: lexicographic on (year, month, day). -/
def Date.ble (a b : Date) : Bool :=
  a.year < b.year ||
    (a.year == b.year &&
      (a.month < b.month || (a.month == b.month && a.day ≤ b.day)))

/-- Stable ordered insertion (ties keep the incumbent first). -/
def orderedInsert (le : α → α → Bool) (a : α) : List α → List α
  | [] => [a]
  | b :: l => if le a b then a :: b :: l else b :: orderedInsert le a l

/-- Stable ascending sort, extensionally Python's `list.sort` for a
total comparator. -/
def sortBy (le : α → α → Bool) : List α → List α
  | [] => []
  | a :: l => orderedInsert le a (sortBy le l)

/-- Python slice `l[:n]`, including negative `n` (drop from the end). -/
def pytake (n : Int) (l : List α) : List α :=
  if 0 ≤ n then l.take n.toNat else l.take ((l.length : Int) + n).toNat

/-- The `Task` pydantic model (`due_date` held as a parsed date). -/
structure Task where
  id : Int
  name : String
  desc : Option String := none
  tags : Option (List String) := none
  due_date : Option Date := none
  priority : Option String := none
  status : String
  created_at : String
  completed_at : Option String := none
deriving DecidableEq, Repr

/-- The `CreateTask` request model. -/
structure CreateTask where
  name : String
  desc : Option String := none
  tags : Option (List String) := none
  due_date : Option Date := none
  priority : Option String := none
deriving DecidableEq, Repr

/-- The `UpdateTask` request model. -/
structure UpdateTask where
  id : Int
  name : Option String := none
  desc : Option String := none
  tags : Option (List String) := none
  due_date : Option Date := none
  priority : Option String := none
  status : Option String := none
deriving DecidableEq, Repr

/-- The `range` literal of `ListTasks`. -/
inductive RangeKind
  | all
  | day
  | week
  | month
  | year
deriving DecidableEq, Repr

/-- The `orderby` literal of `ListTasks`. -/
inductive OrderBy
  | dueDate
  | priority
  | id
deriving DecidableEq, Repr

/-- The `ListTasks` request model, with pydantic defaults. -/
structure ListTasks where
  keyword : Option String := none
  tags : Option (List String) := none
  priority : Option String := none
  status : Option String := none
  range : Option RangeKind := none
  orderby : OrderBy := OrderBy.dueDate
  limit : Option Int := some 10
deriving DecidableEq, Repr

/-- `max([t.id for t in tasks], default := 0)`: Python `max` of the ids,
`0` for an empty store. -/
def maxId : List Task → Int
  | [] => 0
  | [t] => t.id
  | t :: ts => max t.id (maxId ts)

/-- `next_id`: one more than the maximum existing id (0 if none). -/
def next_id (store : List Task) : Int :=
  maxId store + 1

/-- `create_task`: build the task (fresh id, status `active`,
`created_at := now`), append, persist.  Returns (task, new store). -/
def create_task (data : CreateTask) (store : List Task) (now : String) :
    Task × List Task :=
  let task : Task :=
    { id := next_id store
      name := data.name
      desc := data.desc
      tags := data.tags
      due_date := data.due_date
      priority := data.priority
      status := "active"
      created_at := now
      completed_at := none }
  (task, store ++ [task])

/-- `get_task`: first task with the given id, if any. -/
def get_task (task_id : Int) (store : List Task) : Option Task :=
  store.find? (fun t => t.id == task_id)

/-- `if data.name is not None: task.name = data.name` -/
def updName (data : UpdateTask) (t : Task) : Task :=
  match data.name with
  | some n => { t with name := n }
  | none => t

/-- `if data.desc is not None: task.desc = data.desc` -/
def updDesc (data : UpdateTask) (t : Task) : Task :=
  match data.desc with
  | some d => { t with desc := some d }
  | none => t

/-- `if data.tags is not None: task.tags = data.tags` -/
def updTags (data : UpdateTask) (t : Task) : Task :=
  match data.tags with
  | some ts => { t with tags := some ts }
  | none => t

/-- `if data.due_date is not None: task.due_date = data.due_date` -/
def updDueDate (data : UpdateTask) (t : Task) : Task :=
  match data.due_date with
  | some d => { t with due_date := some d }
  | none => t

/-- `if data.priority is not None: task.priority = data.priority` -/
def updPriority (data : UpdateTask) (t : Task) : Task :=
  match data.priority with
  | some p => { t with priority := some p }
  | none => t

/-- The status branch of `update_task`: set the status and stamp
`completed_at := now` exactly on a transition into `completed` from a
different status. -/
def updStatus (data : UpdateTask) (now : String) (t : Task) : Task :=
  match data.status with
  | some s =>
    if s == "completed" && t.status != "completed" then
      { t with status := s, completed_at := some now }
    else
      { t with status := s }
  | none => t

/-- The field-application body of `update_task`: apply exactly the
fields present in the input, in source order. -/
def applyUpdate (data : UpdateTask) (t : Task) (now : String) : Task :=
  updStatus data now
    (updPriority data (updDueDate data (updTags data (updDesc data (updName data t)))))

/-- Replace the first task matching `data.id` by its update; `none`
models the `ValueError` when no task has the id. -/
def updateFirst (data : UpdateTask) (now : String) :
    List Task → Option (Task × List Task)
  | [] => none
  | t :: ts =>
    if t.id == data.id then
      some (applyUpdate data t now, applyUpdate data t now :: ts)
    else
      match updateFirst data now ts with
      | some (u, us) => some (u, t :: us)
      | none => none

/-- `update_task`: returns the updated task and the persisted store, or
`none` (the `ValueError`) when the id is unknown. -/
def update_task (data : UpdateTask) (store : List Task) (now : String) :
    Option (Task × List Task) :=
  updateFirst data now store

/-- `delete_task`: returns (removed?, file content after the call,
was `save_tasks` called?).  The store is rewritten only when a removal
occurred. -/
def delete_task (task_id : Int) (store : List Task) :
    Bool × List Task × Bool :=
  let filtered := store.filter (fun t => t.id != task_id)
  if filtered.length = store.length then (false, store, false)
  else (true, filtered, true)

/-- `status = filters.status or "active"`: Python string truthiness, so
`None` and `""` both fall back to `"active"`. -/
def effectiveStatus (f : ListTasks) : String :=
  match f.status with
  | some s => if s.isEmpty then "active" else s
  | none => "active"

/-- `tasks = [t for t in tasks if t.status == status]` -/
def statusFilter (f : ListTasks) (ts : List Task) : List Task :=
  ts.filter (fun t => t.status == effectiveStatus f)

/-- `if filters.priority: tasks = [t for t in tasks if t.priority == filters.priority]`
(`None` and `""` are falsy and skip the filter). -/
def priorityFilter (f : ListTasks) (ts : List Task) : List Task :=
  match f.priority with
  | some p => if p.isEmpty then ts else ts.filter (fun t => t.priority == some p)
  | none => ts

/-- `if filters.tags: ...` keep tasks whose (truthy) tag list meets any
requested tag; a task with `None` or `[]` tags is dropped. -/
def tagsFilter (f : ListTasks) (ts : List Task) : List Task :=
  match f.tags with
  | some qs =>
    if qs.isEmpty then ts
    else ts.filter (fun t =>
      !(t.tags.getD []).isEmpty &&
        qs.any (fun q => (t.tags.getD []).contains q))
  | none => ts

/-- Python's substring test `needle in hay` on character lists. -/
def containsSub (needle : List Char) : List Char → Bool
  | [] => needle.isEmpty
  | c :: rest => needle.isPrefixOf (c :: rest) || containsSub needle rest

/-- `keyword in t.name.lower() or (t.desc and keyword in t.desc.lower())` -/
def keywordMatch (kw : String) (t : Task) : Bool :=
  containsSub kw.toLower.toList t.name.toLower.toList ||
    (match t.desc with
     | some d => containsSub kw.toLower.toList d.toLower.toList
     | none => false)

/-- `if filters.keyword: ...` substring filter (falsy keyword skips it). -/
def keywordFilter (f : ListTasks) (ts : List Task) : List Task :=
  match f.keyword with
  | some k => if k.isEmpty then ts else ts.filter (keywordMatch k)
  | none => ts

/-- `month_end`: `(today.replace(day=1) + timedelta(days=32)).replace(day=1) - timedelta(days=1)`. -/
def monthEnd (today : Date) : Date :=
  predDay (firstOfMonth (addDays (firstOfMonth today) 32))

/-- `year_start`: `(today.replace(day=1) + timedelta(days=32)).replace(day=1)`. -/
def yearStart (today : Date) : Date :=
  firstOfMonth (addDays (firstOfMonth today) 32)

/-- Per-task due-date condition of each range case of `list_tasks`
(`all` matches no `case` and leaves the has-due-date list unchanged). -/
def rangeKeep (r : RangeKind) (today due : Date) : Bool :=
  match r with
  | RangeKind.all => true
  | RangeKind.day => due == today
  | RangeKind.week => (addDays today 1).ble due && due.ble (addDays today 7)
  | RangeKind.month => (addDays today 8).ble due && due.ble (monthEnd today)
  | RangeKind.year => (yearStart today).ble due && due.ble ⟨today.year, 12, 31⟩

/-- `if filters.range:` — drop tasks without a due date, then apply the
range case's date window. -/
def rangeFilter (f : ListTasks) (today : Date) (ts : List Task) : List Task :=
  match f.range with
  | some r =>
    (ts.filter (fun t => t.due_date.isSome)).filter (fun t =>
      match t.due_date with
      | some d => rangeKeep r today d
      | none => false)
  | none => ts

/-- The filter pipeline of `list_tasks`, in source order. -/
def applyFilters (f : ListTasks) (today : Date) (store : List Task) : List Task :=
  rangeFilter f today (keywordFilter f (tagsFilter f (priorityFilter f (statusFilter f store))))

/-- Due-date sort key comparison: missing dates sort as `datetime.max`
(after every real date). -/
def dueKeyLe (a b : Task) : Bool :=
  match a.due_date, b.due_date with
  | none, none => true
  | none, some _ => false
  | some _, none => true
  | some x, some y => x.ble y

/-- `priority_order = {"high": 0, "medium": 1, "low": 2, None: 3, "none": 3}`
as a partial lookup: `none` result models the `KeyError`. -/
def priorityOrder : Option String → Option Nat
  | some "high" => some 0
  | some "medium" => some 1
  | some "low" => some 2
  | some "none" => some 3
  | none => some 3
  | _ => none

/-- The sort step of `list_tasks`.  Python computes every key before
sorting, so the priority sort raises `KeyError` (here `none`) exactly
when some task's priority is not a dict key. -/
def sortTasks (f : ListTasks) (ts : List Task) : Option (List Task) :=
  match f.orderby with
  | OrderBy.dueDate => some (sortBy dueKeyLe ts)
  | OrderBy.priority =>
    if ts.all (fun t => (priorityOrder t.priority).isSome) then
      some (sortBy
        (fun a b => (priorityOrder a.priority).getD 0 ≤ (priorityOrder b.priority).getD 0) ts)
    else none
  | OrderBy.id => some (sortBy (fun a b => decide (a.id ≤ b.id)) ts)

/-- `limit = filters.limit or 10`: `None` and `0` are falsy. -/
def effectiveLimit (f : ListTasks) : Int :=
  match f.limit with
  | none => 10
  | some n => if n = 0 then 10 else n

/-- `list_tasks`: filters, sort, then `tasks[:limit]`; `none` is the
`KeyError` escaping from the priority sort. -/
def list_tasks (f : ListTasks) (today : Date) (store : List Task) :
    Option (List Task) :=
  (sortTasks f (applyFilters f today store)).map (fun ts => pytake (effectiveLimit f) ts)

/-! ### Calendar arithmetic lemmas -/

/-- The first day of the month after `d`'s month. -/
def firstOfNextMonth (d : Date) : Date :=
  if d.month = 12 then ⟨d.year + 1, 1, 1⟩ else ⟨d.year, d.month + 1, 1⟩

/-- The last day of `d`'s month. -/
def lastOfMonth (d : Date) : Date :=
  ⟨d.year, d.month, daysInMonth d.year d.month⟩

theorem addDays_succ (d : Date) (n : Nat) :
    addDays d (n + 1) = addDays (succDay d) n := rfl

theorem addDays_add (d : Date) (a b : Nat) :
    addDays d (a + b) = addDays (addDays d a) b := by
  induction a generalizing d with
  | zero => rw [Nat.zero_add]; rfl
  | succ a ih =>
    have h : a + 1 + b = (a + b) + 1 := by omega
    rw [h, addDays_succ, addDays_succ, ih]

theorem daysInMonth_bounds (y m : Nat) :
    28 ≤ daysInMonth y m ∧ daysInMonth y m ≤ 31 := by
  unfold daysInMonth
  split
  · split <;> omega
  · split <;> omega

theorem addDays_within (y m j k : Nat) (h : j + k ≤ daysInMonth y m) :
    addDays ⟨y, m, j⟩ k = ⟨y, m, j + k⟩ := by
  induction k generalizing j with
  | zero => rfl
  | succ k ih =>
    rw [addDays_succ]
    have hlt : j < daysInMonth y m := by omega
    have hs : succDay ⟨y, m, j⟩ = ⟨y, m, j + 1⟩ := by
      unfold succDay; simp [hlt]
    rw [hs, ih (j + 1) (by omega)]
    congr 1
    omega

theorem succDay_endOfMonth (y m : Nat) (hm : m < 12) :
    succDay ⟨y, m, daysInMonth y m⟩ = ⟨y, m + 1, 1⟩ := by
  unfold succDay
  simp [hm]

theorem daysInMonth_december (y : Nat) : daysInMonth y 12 = 31 := by
  unfold daysInMonth
  norm_num

theorem succDay_endOfYear (y : Nat) : succDay ⟨y, 12, 31⟩ = ⟨y + 1, 1, 1⟩ := by
  unfold succDay
  rw [daysInMonth_december]
  norm_num

/-- The code's `(d.replace(day=1) + timedelta(days=32)).replace(day=1)`
is the first day of the next month, for every valid date. -/
theorem yearStart_eq (d : Date) (h : d.Valid) :
    yearStart d = firstOfNextMonth d := by
  obtain ⟨y, m, dd⟩ := d
  obtain ⟨hm1, hm2, hd1, hd2⟩ := h
  dsimp only at hm1 hm2 hd1 hd2
  have hb := daysInMonth_bounds y m
  set L := daysInMonth y m with hL
  have h32 : (32 : Nat) = (L - 1) + (1 + (32 - L)) := by omega
  unfold yearStart firstOfMonth
  dsimp only
  rw [h32, addDays_add, addDays_within y m 1 (L - 1) (by omega)]
  have hday : 1 + (L - 1) = L := by omega
  rw [hday, addDays_add, show addDays ⟨y, m, L⟩ 1 = succDay ⟨y, m, L⟩ from rfl]
  rcases Nat.lt_or_ge m 12 with hm | hm
  · rw [hL, succDay_endOfMonth y m hm]
    have hnext := daysInMonth_bounds y (m + 1)
    rw [addDays_within y (m + 1) 1 (32 - L) (by omega)]
    unfold firstOfNextMonth
    dsimp only
    rw [if_neg (by omega)]
  · have hm12 : m = 12 := by omega
    subst hm12
    have hL31 : L = 31 := by rw [hL, daysInMonth_december]
    rw [hL31, succDay_endOfYear]
    have hnext := daysInMonth_bounds (y + 1) 1
    rw [addDays_within (y + 1) 1 1 (32 - 31) (by omega)]
    unfold firstOfNextMonth
    norm_num

/-- The code's month-window upper bound (`... - timedelta(days=1)`) is
the last day of the current month, for every valid date. -/
theorem monthEnd_eq (d : Date) (h : d.Valid) :
    monthEnd d = lastOfMonth d := by
  have hy : monthEnd d = predDay (yearStart d) := rfl
  rw [hy, yearStart_eq d h]
  obtain ⟨y, m, dd⟩ := d
  obtain ⟨hm1, hm2, hd1, hd2⟩ := h
  dsimp only at hm1 hm2 hd1 hd2
  rcases Nat.lt_or_ge m 12 with hm | hm
  · have hnm : firstOfNextMonth ⟨y, m, dd⟩ = ⟨y, m + 1, 1⟩ := by
      unfold firstOfNextMonth; dsimp only; rw [if_neg (by omega)]
    rw [hnm]
    unfold predDay lastOfMonth
    dsimp only
    rw [if_neg (by omega), if_pos (by omega)]
    have h1 : m + 1 - 1 = m := by omega
    rw [h1]
  · have hm12 : m = 12 := by omega
    subst hm12
    have hnm : firstOfNextMonth ⟨y, 12, dd⟩ = ⟨y + 1, 1, 1⟩ := by
      unfold firstOfNextMonth; norm_num
    rw [hnm]
    unfold predDay lastOfMonth
    dsimp only
    rw [if_neg (by omega), if_neg (by omega)]
    have h31 := daysInMonth_december y
    simp only [Date.mk.injEq]
    exact ⟨by omega, trivial, h31.symm⟩

/-! ### Sort and filter infrastructure lemmas -/

theorem mem_orderedInsert (le : α → α → Bool) (a b : α) (l : List α) :
    b ∈ orderedInsert le a l ↔ b = a ∨ b ∈ l := by
  induction l with
  | nil => simp [orderedInsert]
  | cons c l ih =>
    unfold orderedInsert
    split
    · simp
    · simp [ih]
      tauto

theorem mem_sortBy (le : α → α → Bool) (b : α) (l : List α) :
    b ∈ sortBy le l ↔ b ∈ l := by
  induction l with
  | nil => simp [sortBy]
  | cons a l ih =>
    unfold sortBy
    rw [mem_orderedInsert, ih]
    simp

theorem mem_of_mem_pytake (n : Int) (l : List α) (a : α)
    (h : a ∈ pytake n l) : a ∈ l := by
  unfold pytake at h
  split at h <;> exact List.take_subset _ _ h

theorem mem_of_sortTasks (f : ListTasks) (ts l : List Task) (t : Task)
    (hs : sortTasks f ts = some l) (ht : t ∈ l) : t ∈ ts := by
  unfold sortTasks at hs
  split at hs
  · cases hs; rwa [mem_sortBy] at ht
  · split at hs
    · cases hs; rwa [mem_sortBy] at ht
    · cases hs
  · cases hs; rwa [mem_sortBy] at ht

theorem mem_of_priorityFilter (f : ListTasks) (ts : List Task) (t : Task)
    (h : t ∈ priorityFilter f ts) : t ∈ ts := by
  unfold priorityFilter at h
  split at h
  · split at h
    · exact h
    · exact List.mem_of_mem_filter h
  · exact h

theorem mem_of_tagsFilter (f : ListTasks) (ts : List Task) (t : Task)
    (h : t ∈ tagsFilter f ts) : t ∈ ts := by
  unfold tagsFilter at h
  split at h
  · split at h
    · exact h
    · exact List.mem_of_mem_filter h
  · exact h

theorem mem_of_keywordFilter (f : ListTasks) (ts : List Task) (t : Task)
    (h : t ∈ keywordFilter f ts) : t ∈ ts := by
  unfold keywordFilter at h
  split at h
  · split at h
    · exact h
    · exact List.mem_of_mem_filter h
  · exact h

theorem mem_of_rangeFilter (f : ListTasks) (today : Date) (ts : List Task)
    (t : Task) (h : t ∈ rangeFilter f today ts) : t ∈ ts := by
  unfold rangeFilter at h
  split at h
  · exact List.mem_of_mem_filter (List.mem_of_mem_filter h)
  · exact h

theorem status_of_mem_statusFilter (f : ListTasks) (ts : List Task) (t : Task)
    (h : t ∈ statusFilter f ts) : t.status = effectiveStatus f := by
  unfold statusFilter at h
  have := List.of_mem_filter h
  simpa using this

theorem le_maxId (t : Task) (store : List Task) (h : t ∈ store) :
    t.id ≤ maxId store := by
  induction store with
  | nil => cases h
  | cons a l ih =>
    rcases List.mem_cons.mp h with rfl | hl
    · cases l with
      | nil => simp [maxId]
      | cons b m => simp [maxId]
    · cases l with
      | nil => cases hl
      | cons b m =>
        have := ih hl
        unfold maxId
        exact le_trans this (le_max_right _ _)

/-! ### Sample data for witnesses and counterexamples -/

/-- A single active task with id 5. -/
def sampleTask : Task :=
  { id := 5, name := "a", status := "active", created_at := "t" }

/-- A store of 11 active tasks (ids 0..10), all matching a bare listing. -/
def elevenTasks : List Task :=
  (List.range 11).map (fun i =>
    { id := (i : Int), name := "t", status := "active", created_at := "c" })

/-- An active task due 2024-06-20. -/
def juneTask : Task :=
  { id := 1, name := "m", due_date := some ⟨2024, 6, 20⟩, status := "active",
    created_at := "c" }

/-- The non-status field updates of `update_task` touch neither `status`
nor `completed_at`. -/
theorem preStatus_frame (data : UpdateTask) (t : Task) :
    (updPriority data (updDueDate data (updTags data (updDesc data (updName data t))))).status
        = t.status ∧
      (updPriority data (updDueDate data (updTags data (updDesc data (updName data t))))).completed_at
        = t.completed_at := by
  unfold updName updDesc updTags updDueDate updPriority
  rcases data with ⟨i, n, de, tg, du, pr, st⟩
  cases n <;> cases de <;> cases tg <;> cases du <;> cases pr <;> simp

/-! ### C1 -/

/-- C1: the claim says identifiers are never reused even after deleting
the highest-id task.  Counterexample: on an empty store, create assigns
id 1; deleting it and creating again assigns id 1 a second time. -/
theorem c1_id_reuse_counterexample :
    (create_task { name := "a" } [] "t0").1.id = 1 ∧
      (delete_task 1 (create_task { name := "a" } [] "t0").2).1 = true ∧
      (create_task { name := "b" }
          (delete_task 1 (create_task { name := "a" } [] "t0").2).2.1 "t1").1.id = 1 := by
  decide

/-- C1 (amended): `next_id` returns one more than the maximum id of the
current store, which is strictly greater than every id currently stored
— so a fresh id never collides with an existing task — but ids of
deleted tasks can be reassigned. -/
theorem c1_next_id_fresh (store : List Task) (t : Task) (h : t ∈ store) :
    t.id < next_id store := by
  unfold next_id
  have := le_maxId t store h
  omega

/-- Witness for C1 (amended) at a concrete store. -/
theorem c1_next_id_fresh_witness :
    sampleTask ∈ [sampleTask] ∧ sampleTask.id < next_id [sampleTask] :=
  ⟨by decide, c1_next_id_fresh [sampleTask] sampleTask (by decide)⟩

/-! ### C4 -/

/-- C4: `update` sets `completed_at` to now exactly when the input sets
status to `completed` and the task is not already `completed`; every
other update leaves `completed_at` unchanged, so it is never cleared. -/
theorem c4_completed_at (data : UpdateTask) (t : Task) (now : String) :
    (applyUpdate data t now).completed_at =
      if data.status = some "completed" ∧ t.status ≠ "completed" then some now
      else t.completed_at := by
  obtain ⟨hst, hca⟩ := preStatus_frame data t
  unfold applyUpdate updStatus
  cases hs : data.status with
  | none => simp [hca]
  | some s =>
    by_cases hc : s = "completed"
    · subst hc
      by_cases ht : t.status = "completed"
      · simp [hst, ht, hca]
      · simp [hst, ht, hca]
    · simp [hst, hc, hca]

/-! ### C5 -/

/-- C5: the claim says create rejects an empty name and writes nothing.
Counterexample: `create_task` with name `""` succeeds, persists the new
task, and the created task's name is empty. -/
theorem c5_empty_name_counterexample :
    (create_task { name := "" } [] "t0").1.name = "" ∧
      (create_task { name := "" } [] "t0").2 = [(create_task { name := "" } [] "t0").1] := by
  decide

/-- C5 (amended): the engine performs no name validation: a request with
a missing name cannot be built at all (the schema requires the field),
and for every request that reaches the engine — including one with an
empty name — create succeeds, the new task's name equals the request's
name, and the task is appended to the store. -/
theorem c5_create_no_name_validation (data : CreateTask) (store : List Task)
    (now : String) :
    (create_task data store now).1.name = data.name ∧
      (create_task data store now).2 = store ++ [(create_task data store now).1] :=
  ⟨rfl, rfl⟩

/-! ### C8 -/

/-- C8: an update carrying only id and priority changes exactly the
priority of the first task with that id: name, desc, tags, due_date,
status and completed_at are untouched (the record update fixes every
other field). -/
theorem c8_partial_update (i : Int) (p : String) (store : List Task)
    (now : String) (u : Task) (s' : List Task)
    (h : update_task { id := i, priority := some p } store now = some (u, s')) :
    ∃ t, get_task i store = some t ∧ u = { t with priority := some p } := by
  induction store generalizing s' with
  | nil => cases h
  | cons a ts ih =>
    unfold update_task updateFirst at h
    unfold get_task
    by_cases ha : a.id == i
    · rw [if_pos ha] at h
      refine ⟨a, ?_, ?_⟩
      · simp only [List.find?]
        rw [ha]
      · have hu : u = applyUpdate { id := i, priority := some p } a now := by
          cases h; rfl
        rw [hu]
        rfl
    · rw [if_neg ha] at h
      cases hrec : updateFirst { id := i, priority := some p } now ts with
      | none => rw [hrec] at h; cases h
      | some r =>
        obtain ⟨u', us⟩ := r
        rw [hrec] at h
        have hu : u = u' := by cases h; rfl
        obtain ⟨t, hget, hform⟩ := ih us (by rw [update_task, hrec, hu])
        refine ⟨t, ?_, hform⟩
        have ha' : (a.id == i) = false := by simpa using ha
        simp only [List.find?]
        rw [ha']
        exact hget

/-- Witness for C8 at a concrete store. -/
theorem c8_partial_update_witness :
    ∃ t, get_task 5 [sampleTask] = some t ∧
      (applyUpdate { id := 5, priority := some "high" } sampleTask "n")
        = { t with priority := some "high" } :=
  c8_partial_update 5 "high" [sampleTask] "n"
    (applyUpdate { id := 5, priority := some "high" } sampleTask "n")
    [applyUpdate { id := 5, priority := some "high" } sampleTask "n"]
    (by decide)

/-! ### C2 -/

theorem applyFilters_limit_irrel (f : ListTasks) (l' : Option Int)
    (today : Date) (store : List Task) :
    applyFilters { f with limit := l' } today store = applyFilters f today store := by
  rcases f; rfl

theorem sortTasks_limit_irrel (f : ListTasks) (l' : Option Int) (ts : List Task) :
    sortTasks { f with limit := l' } ts = sortTasks f ts := by
  rcases f; rfl

/-- C2: the claim says an explicit `limit = 0` removes truncation.
Counterexample: with 11 matching tasks and `limit = 0`, `list_tasks`
still returns only 10 of them (`0` is falsy and falls back to the
default of 10). -/
theorem c2_limit_zero_counterexample :
    (list_tasks { limit := some 0 } ⟨2024, 6, 10⟩ elevenTasks).map List.length
        = some 10 ∧
      elevenTasks.length = 11 := by
  decide

/-- C2 (amended): with no explicit limit the result is truncated to at
most 10 tasks, and an explicit `limit = 0` does NOT remove truncation:
it is treated as unset (Python falsiness) and behaves exactly like the
default limit of 10. -/
theorem c2_limit_default (f : ListTasks) (today : Date) (store : List Task)
    (h : f.limit = none ∨ f.limit = some 0) :
    list_tasks f today store = list_tasks { f with limit := some 10 } today store ∧
      ∀ l, list_tasks f today store = some l → l.length ≤ 10 := by
  have he : effectiveLimit f = 10 := by
    rcases h with h | h <;> simp [effectiveLimit, h]
  have he10 : effectiveLimit { f with limit := some 10 } = 10 := by
    simp [effectiveLimit]
  constructor
  · unfold list_tasks
    rw [applyFilters_limit_irrel f (some 10) today store,
      sortTasks_limit_irrel f (some 10), he, he10]
  · intro l hl
    unfold list_tasks at hl
    obtain ⟨ts, _, hts⟩ := Option.map_eq_some'.mp hl
    rw [← hts, he]
    unfold pytake
    rw [if_pos (by omega)]
    exact le_trans (List.length_take_le _ _) (by norm_num)

/-- Witness for C2 (amended) at a concrete query. -/
theorem c2_limit_default_witness :
    list_tasks { limit := some 0 } ⟨2024, 6, 10⟩ elevenTasks
        = list_tasks { limit := some 10 } ⟨2024, 6, 10⟩ elevenTasks ∧
      ∀ l, list_tasks { limit := some 0 } ⟨2024, 6, 10⟩ elevenTasks = some l →
        l.length ≤ 10 :=
  c2_limit_default { limit := some 0 } ⟨2024, 6, 10⟩ elevenTasks (Or.inr rfl)

/-! ### C6 -/

theorem length_filter_lt_of_mem (p : α → Bool) (l : List α) (a : α)
    (ha : a ∈ l) (hp : p a = false) : (l.filter p).length < l.length := by
  induction l with
  | nil => cases ha
  | cons b m ih =>
    rcases List.mem_cons.mp ha with rfl | hm
    · have h1 := List.length_filter_le p m
      rw [List.filter_cons, hp]
      simp only [Bool.false_eq_true, if_false, List.length_cons]
      omega
    · rw [List.filter_cons]
      have := ih hm
      split <;> simp only [List.length_cons] <;> omega

/-- C6: `delete` returns true and persists the store without the
matching tasks when the id is present; with an absent id it returns
false and performs no write, leaving the stored file untouched (the
third component records whether `save_tasks` ran). -/
theorem c6_delete (task_id : Int) (store : List Task) :
    ((∀ t ∈ store, t.id ≠ task_id) →
        delete_task task_id store = (false, store, false)) ∧
      ((∃ t ∈ store, t.id = task_id) →
        delete_task task_id store =
          (true, store.filter (fun t => t.id != task_id), true)) := by
  constructor
  · intro h
    unfold delete_task
    have hself : store.filter (fun t => t.id != task_id) = store :=
      List.filter_eq_self.mpr (fun a ha => by simpa using h a ha)
    rw [if_pos (by rw [hself])]
  · rintro ⟨t, ht, hid⟩
    unfold delete_task
    rw [if_neg]
    have hlt := length_filter_lt_of_mem (fun t => t.id != task_id) store t ht
      (by simp [hid])
    omega

/-- Witness for C6 at concrete stores. -/
theorem c6_delete_witness :
    delete_task 9999 [sampleTask] = (false, [sampleTask], false) ∧
      delete_task 5 [sampleTask] = (true, [], true) := by
  constructor
  · exact (c6_delete 9999 [sampleTask]).1 (by decide)
  · exact ((c6_delete 5 [sampleTask]).2 ⟨sampleTask, by decide, by decide⟩).trans
      (by decide)

/-! ### C3 and C9: range windows -/

theorem mem_rangeFilter_iff (f : ListTasks) (r : RangeKind) (today : Date)
    (ts : List Task) (t : Task) (due : Date)
    (hr : f.range = some r) (hd : t.due_date = some due) :
    t ∈ rangeFilter f today ts ↔ t ∈ ts ∧ rangeKeep r today due = true := by
  unfold rangeFilter
  rw [hr]
  simp [List.mem_filter, hd, and_assoc]

/-- Modelled from the spec: the lower bound of the `year` bucket as the
spec words it, the first day of the month after the current quarter. -/
def specYearLowerBound (today : Date) : Date :=
  if (today.month - 1) / 3 ≥ 3 then ⟨today.year + 1, 1, 1⟩
  else ⟨today.year, 3 * ((today.month - 1) / 3) + 4, 1⟩

set_option maxRecDepth 8192 in
/-- C3: the claim says the `year` bucket starts at the first day of the
month after the current quarter.  Counterexample: on 2024-05-15 that
bound is 2024-07-01, yet `list_tasks` keeps a task due 2024-06-20 in the
`year` range (the code starts the window at the first day of the next
month). -/
theorem c3_year_quarter_counterexample :
    list_tasks { range := some RangeKind.year } ⟨2024, 5, 15⟩ [juneTask]
        = some [juneTask] ∧
      specYearLowerBound ⟨2024, 5, 15⟩ = ⟨2024, 7, 1⟩ ∧
      (specYearLowerBound ⟨2024, 5, 15⟩).ble ⟨2024, 6, 20⟩ = false := by
  decide

/-- C3 (amended): a `year` range query keeps a task with a due date
exactly when the due date lies in the closed interval from the first day
of the NEXT MONTH after today to December 31 of the current year. -/
theorem c3_year_window (f : ListTasks) (today : Date) (store : List Task)
    (t : Task) (due : Date) (hr : f.range = some RangeKind.year)
    (hv : today.Valid) (hd : t.due_date = some due) :
    t ∈ rangeFilter f today store ↔
      t ∈ store ∧
        ((firstOfNextMonth today).ble due && due.ble ⟨today.year, 12, 31⟩) = true := by
  rw [mem_rangeFilter_iff f RangeKind.year today store t due hr hd]
  unfold rangeKeep
  rw [yearStart_eq today hv]

set_option maxRecDepth 8192 in
/-- Witness for C3 (amended) at a concrete query. -/
theorem c3_year_window_witness :
    (⟨2024, 5, 15⟩ : Date).Valid ∧
      (juneTask ∈ rangeFilter { range := some RangeKind.year } ⟨2024, 5, 15⟩ [juneTask] ↔
        juneTask ∈ [juneTask] ∧
          ((firstOfNextMonth ⟨2024, 5, 15⟩).ble ⟨2024, 6, 20⟩ &&
            (⟨2024, 6, 20⟩ : Date).ble ⟨2024, 12, 31⟩) = true) :=
  ⟨by decide,
    c3_year_window { range := some RangeKind.year } ⟨2024, 5, 15⟩ [juneTask]
      juneTask ⟨2024, 6, 20⟩ rfl (by decide) rfl⟩

set_option maxRecDepth 8192 in
/-- C9: the `week` bucket keeps a task with a due date exactly when the
due date is in `[today+1, today+7]`, and the `month` bucket exactly when
it is in `[today+8, last day of the current month]`; with today =
2024-06-10, a task due 2024-06-11 is in `week`, one due 2024-06-10 is in
`day`, and one due 2024-06-18 is in `month` and not in `week`. -/
theorem c9_week_month_windows (f : ListTasks) (today : Date)
    (store : List Task) (t : Task) (due : Date)
    (hv : today.Valid) (hd : t.due_date = some due) :
    ((f.range = some RangeKind.week →
        (t ∈ rangeFilter f today store ↔
          t ∈ store ∧
            ((addDays today 1).ble due && due.ble (addDays today 7)) = true)) ∧
      (f.range = some RangeKind.month →
        (t ∈ rangeFilter f today store ↔
          t ∈ store ∧
            ((addDays today 8).ble due && due.ble (lastOfMonth today)) = true))) ∧
      (rangeKeep RangeKind.week ⟨2024, 6, 10⟩ ⟨2024, 6, 11⟩ = true ∧
        rangeKeep RangeKind.day ⟨2024, 6, 10⟩ ⟨2024, 6, 10⟩ = true ∧
        rangeKeep RangeKind.month ⟨2024, 6, 10⟩ ⟨2024, 6, 18⟩ = true ∧
        rangeKeep RangeKind.week ⟨2024, 6, 10⟩ ⟨2024, 6, 18⟩ = false) := by
  refine ⟨⟨?_, ?_⟩, by decide⟩
  · intro hr
    rw [mem_rangeFilter_iff f RangeKind.week today store t due hr hd]
    exact Iff.rfl
  · intro hr
    rw [mem_rangeFilter_iff f RangeKind.month today store t due hr hd]
    unfold rangeKeep
    rw [monthEnd_eq today hv]

/-- Witness for C9 at a concrete query (today = 2024-06-10, due
2024-06-11, `week` range). -/
theorem c9_week_month_windows_witness :
    (⟨2024, 6, 10⟩ : Date).Valid ∧
      (({ range := some RangeKind.week } : ListTasks).range = some RangeKind.week →
        ({ juneTask with due_date := some ⟨2024, 6, 11⟩ } ∈
            rangeFilter { range := some RangeKind.week } ⟨2024, 6, 10⟩
              [{ juneTask with due_date := some ⟨2024, 6, 11⟩ }] ↔
          { juneTask with due_date := some ⟨2024, 6, 11⟩ } ∈
              [{ juneTask with due_date := some ⟨2024, 6, 11⟩ }] ∧
            ((addDays ⟨2024, 6, 10⟩ 1).ble ⟨2024, 6, 11⟩ &&
              (⟨2024, 6, 11⟩ : Date).ble (addDays ⟨2024, 6, 10⟩ 7)) = true)) :=
  ⟨by decide,
    (c9_week_month_windows { range := some RangeKind.week } ⟨2024, 6, 10⟩
      [{ juneTask with due_date := some ⟨2024, 6, 11⟩ }]
      { juneTask with due_date := some ⟨2024, 6, 11⟩ } ⟨2024, 6, 11⟩
      (by decide) rfl).1.1⟩

/-! ### C7 -/

/-- C7: a listing with no status filter returns only `active` tasks:
every task in the result of `list_tasks` with `status = none` has status
`"active"`, whatever else is in the store. -/
theorem c7_default_active (f : ListTasks) (today : Date) (store : List Task)
    (l : List Task) (t : Task) (hs : f.status = none)
    (hl : list_tasks f today store = some l) (ht : t ∈ l) :
    t.status = "active" := by
  unfold list_tasks at hl
  obtain ⟨ts, hts, hmap⟩ := Option.map_eq_some'.mp hl
  have h1 : t ∈ ts := mem_of_mem_pytake _ _ _ (hmap ▸ ht)
  have h2 : t ∈ applyFilters f today store := mem_of_sortTasks f _ ts t hts h1
  unfold applyFilters at h2
  have h3 := mem_of_rangeFilter _ _ _ _ h2
  have h4 := mem_of_keywordFilter _ _ _ h3
  have h5 := mem_of_tagsFilter _ _ _ h4
  have h6 := mem_of_priorityFilter _ _ _ h5
  have h7 := status_of_mem_statusFilter _ _ _ h6
  rw [h7]
  unfold effectiveStatus
  rw [hs]

/-- Witness for C7: a bare listing over a mixed store. -/
theorem c7_default_active_witness :
    list_tasks {} ⟨2024, 6, 10⟩ [sampleTask, { sampleTask with id := 6, status := "completed" }]
        = some [sampleTask] ∧
      sampleTask.status = "active" :=
  ⟨by decide,
    c7_default_active {} ⟨2024, 6, 10⟩
      [sampleTask, { sampleTask with id := 6, status := "completed" }]
      [sampleTask] sampleTask rfl (by decide) (by decide)⟩

/-! ### C10 -/

/-- C10: sorting by priority is partial: whenever the filtered result
contains a task whose priority is not a key of the priority-order dict
(any string other than high/medium/low/none, with `None` also allowed),
`list_tasks` fails with the `KeyError` (modelled as `none`) instead of
returning a result. -/
theorem c10_priority_keyerror (f : ListTasks) (today : Date)
    (store : List Task) (t : Task) (ho : f.orderby = OrderBy.priority)
    (ht : t ∈ applyFilters f today store)
    (hp : priorityOrder t.priority = none) :
    list_tasks f today store = none := by
  unfold list_tasks sortTasks
  rw [ho]
  have hall : (applyFilters f today store).all
      (fun t => (priorityOrder t.priority).isSome) = false := by
    cases hb : (applyFilters f today store).all
        (fun t => (priorityOrder t.priority).isSome) with
    | false => rfl
    | true =>
      have := List.all_eq_true.mp hb t ht
      rw [hp] at this
      cases this
  rw [hall]
  simp

/-- Witness for C10: the error branch is reachable from the public
interface — create a task with priority `"urgent"`, then list ordered by
priority. -/
theorem c10_priority_keyerror_witness :
    list_tasks { orderby := OrderBy.priority } ⟨2024, 6, 10⟩
        (create_task { name := "x", priority := some "urgent" } [] "t").2 = none :=
  c10_priority_keyerror { orderby := OrderBy.priority } ⟨2024, 6, 10⟩
    (create_task { name := "x", priority := some "urgent" } [] "t").2
    (create_task { name := "x", priority := some "urgent" } [] "t").1
    rfl (by decide) (by decide)

end McpTodo
